import Mathlib

/-!
Shallow embedding of the pow-mongodb-fixtures load pipeline (src/src/index.js):
fixture resolution (`fixturesLoader`, `_directoryToObject`), clearing
(`Loader.prototype.clear`), the modifier chain and insertion
(`Loader.prototype._loadData`), the composite operations
(`load`, `clearAndLoad`, `clearAllAndLoad`), connection caching
(`Loader.prototype._connect`) and the `createObjectId` helper.

Documents are an abstract type parameter `Doc`.  The MongoDB driver and the
filesystem are the external collaborators of the spec (section 6) and are
modelled as: a database is a finite association list from collection name to
document list (`insertAsync` appends documents, creating the collection when
absent; `removeAsync({})` empties the collection but keeps it); the filesystem
is an association list from path to resource (file with its exported object,
or directory with its entry names).
-/

deriving instance DecidableEq for Except

namespace Pow

/-- One value of a fixture object: either an array of documents (order
preserved) or a keyed object whose values are documents (`_.values`). -/
inductive Batch (Doc : Type) where
  | arr (docs : List Doc)
  | obj (kvs : List (String × Doc))
deriving DecidableEq

/-- The documents extracted from a batch by `_loadData`:
`Array.isArray(data) ? data.slice() : _.values(data)`. -/
def Batch.items {Doc : Type} : Batch Doc → List Doc
  | .arr ds => ds
  | .obj kvs => kvs.map Prod.snd

/-- A fixture object: collection name keyed to a batch (JS object as an
association list in key-insertion order). -/
abbrev FixtureSet (Doc : Type) := List (String × Batch Doc)

/-- Errors raised during fixture resolution. -/
inductive Err where
  | resourceNotFound
  | unsupportedInput
deriving DecidableEq

/-- A filesystem resource: a fixture file (with its exported object) or a
directory (with the names of its direct entries). -/
inductive Resource (Doc : Type) where
  | file (exports : FixtureSet Doc)
  | dir (entries : List String)
deriving DecidableEq

/-- The filesystem: paths mapped to resources. -/
abbrev FS (Doc : Type) := List (String × Resource Doc)

/-- Models `fs.statAsync` / `require`: look a path up in the filesystem. -/
def FS.stat {Doc : Type} (env : FS Doc) (p : String) : Option (Resource Doc) :=
  (env.find? (fun e => decide (e.1 = p))).map Prod.snd

/-- The argument accepted by `load`/`clearAndLoad`/`clearAllAndLoad`: an
inline fixture object, a path string, or any other value. -/
inductive FixInput (Doc : Type) where
  | obj (fs : FixtureSet Doc)
  | path (p : String)
  | other
deriving DecidableEq

/-- A database: collection names mapped to their documents. -/
abbrev DB (Doc : Type) := List (String × List Doc)

/-- The documents of a collection; a collection that does not exist reads as
empty. -/
def DB.contents {Doc : Type} (db : DB Doc) (name : String) : List Doc :=
  ((db.find? (fun e => decide (e.1 = name))).map Prod.snd).getD []

/-- Driver-side `insertAsync`: append documents to the named collection,
creating it when absent. -/
def DB.insert {Doc : Type} (db : DB Doc) (n : String) (ds : List Doc) : DB Doc :=
  match db with
  | [] => [(n, ds)]
  | e :: t => if e.1 = n then (e.1, e.2 ++ ds) :: t else e :: DB.insert t n ds

/-- One step of the merge in `_directoryToObject`: for each pair of one file
exported object, convert the batch to an array of documents and append it to
the accumulated `collections[name]` (created as `[]` when missing). -/
def mergeFileObject {Doc : Type} (acc : DB Doc) (fo : FixtureSet Doc) : DB Doc :=
  fo.foldl (fun a p => DB.insert a p.1 p.2.items) acc

/-- Embeds the per-entry load of `_directoryToObject`: a directory entry
contributes the empty object, a file entry contributes the result of
`_fileToObject(path)`, and a path the filesystem cannot stat is an error. -/
def entryToObject {Doc : Type} (env : FS Doc) (p : String) : Except Err (FixtureSet Doc) :=
  match FS.stat env p with
  | none => .error .resourceNotFound
  | some (.dir _) => .ok []
  | some (.file ex) => .ok ex

/-- Embeds `_directoryToObject`: read the directory, load every direct entry
(subdirectories contribute `{}`), and merge the file objects in enumeration
order into one collections object. -/
def directoryToObject {Doc : Type} (env : FS Doc) (dir : String) : Except Err (DB Doc) :=
  match FS.stat env dir with
  | some (.dir entries) =>
      (entries.mapM (fun e => entryToObject env (dir ++ "/" ++ e))).map
        (fun fos => fos.foldl mergeFileObject [])
  | _ => .error .resourceNotFound

/-- Embeds `fixturesLoader`: an object is returned as-is, a string is checked with stat and
loaded as a file or as a directory, anything else is rejected. -/
def fixturesLoader {Doc : Type} (env : FS Doc) : FixInput Doc → Except Err (FixtureSet Doc)
  | .obj fs => .ok fs
  | .path p =>
      match FS.stat env p with
      | none => .error .resourceNotFound
      | some (.file ex) => .ok ex
      | some (.dir _) =>
          (directoryToObject env p).map (fun m => m.map (fun q => (q.1, Batch.arr q.2)))
  | .other => .error .unsupportedInput

/-- A MongoDB ObjectID value as seen by `createObjectId`: `ref` is the
object identity (two variables alias the same instance iff their `ref`
agrees) and `hex` its canonical 24-character string form (`toString`). -/
structure ObjectID where
  ref : Nat
  hex : String
deriving DecidableEq

/-- The argument accepted by `createObjectId`: an existing ObjectID, a string,
a missing/null argument, or any other value. -/
inductive IdInput where
  | oid (x : ObjectID)
  | str (s : String)
  | null
  | other
deriving DecidableEq

/-- Error of `createObjectId` for a non-string, non-ObjectID argument. -/
inductive IdErr where
  | typeError
deriving DecidableEq

/-- Embeds `createObjectId` (src/src/index.js lines 394-402): an ObjectID argument is
returned unchanged (the same instance, no allocation); a string or missing
argument allocates a fresh instance via `new ObjectID(id)` (`fresh` is the
next unused reference, `gen` the entropy used when generating a new hex);
anything else throws a TypeError.  Returns the result together with the next
unused reference. -/
def createObjectId (fresh : Nat) (gen : String) : IdInput → Except IdErr (ObjectID × Nat)
  | .oid x => .ok (x, fresh)
  | .str s => .ok (⟨fresh, s⟩, fresh + 1)
  | .null => .ok (⟨fresh, gen⟩, fresh + 1)
  | .other => .error .typeError

/-- A modifier function: `(collectionName, document) -> document`. -/
abbrev Mod (Doc : Type) := String → Doc → Doc

/-- Embeds `addModifier`: `this.modifiers.push(modifier)` — registration appends at
the end of the chain. -/
def addModifier {Doc : Type} (mods : List (Mod Doc)) (m : Mod Doc) : List (Mod Doc) :=
  mods ++ [m]

/-- The modifier loop of `_loadData`: `Promise.each(self.modifiers, ...)`
rebinds `item` to the output of each modifier in turn, so the document threads
left-to-right through the registered chain. -/
def applyModifiers {Doc : Type} (mods : List (Mod Doc)) (name : String) (d : Doc) : Doc :=
  mods.foldl (fun item m => m name item) d

/-- The sequence of intermediate documents produced by the modifier loop:
entry 0 is the original document and entry `i+1` is modifier `i` applied to
entry `i`. -/
def chainOutputs {Doc : Type} (mods : List (Mod Doc)) (name : String) (d : Doc) : List Doc :=
  match mods with
  | [] => [d]
  | m :: rest => d :: chainOutputs rest name (m name d)

/-- The mutable state behind one Loader instance plus the database it talks
to: `client` is the cached connection of `_connect` (`this.client`),
`connects` counts how many connections were actually established, `nextConn`
feeds fresh connection identities, `db` is the data held by the server. -/
structure St (Doc : Type) where
  client : Option Nat
  connects : Nat
  nextConn : Nat
  db : DB Doc
deriving DecidableEq

/-- Observable calls made against the collaborators during one operation. -/
inductive Event where
  | resolveCall
  | clearCall (names : Option (List String))
  | insertCall (name : String)
deriving DecidableEq

/-- The outcome of one loader operation: the reported error (if any), the
final state, and the trace of collaborator calls. -/
structure Outcome (Doc : Type) where
  err : Option Err
  state : St Doc
  trace : List Event
deriving DecidableEq

namespace Loader

/-- Embeds `Loader.prototype._connect`: return the cached client if present,
otherwise open (and cache) a new connection. -/
def connect {Doc : Type} (s : St Doc) : Nat × St Doc :=
  match s.client with
  | some c => (c, s)
  | none =>
      (s.nextConn,
       { s with client := some s.nextConn, connects := s.connects + 1,
                nextConn := s.nextConn + 1 })

/-- One iteration of the `Promise.each` loop of `_loadData` over the collection names:
run every document of the batch through the modifier chain and issue one
insert for the collection. -/
def loadDataStep {Doc : Type} (mods : List (Mod Doc)) (acc : St Doc × List Event)
    (p : String × Batch Doc) : St Doc × List Event :=
  ({ acc.1 with db := DB.insert acc.1.db p.1 (p.2.items.map (applyModifiers mods p.1)) },
   acc.2 ++ [Event.insertCall p.1])

/-- Embeds `Loader.prototype._loadData`: connect, then for each collection of the
resolved data, modify and insert its documents. -/
def loadData {Doc : Type} (mods : List (Mod Doc)) (data : FixtureSet Doc)
    (s : St Doc) : St Doc × List Event :=
  data.foldl (loadDataStep mods) ((connect s).2, [])

/-- Embeds the check `_.startsWith(collectionName, ...)` against the marker `system.`: does the name begin with the
reserved system collection marker?  Stated over the character lists so that
it evaluates inside the kernel. -/
def isSystemName (k : String) : Bool :=
  "system.".data.isPrefixOf k.data

/-- Which collections a clear call empties: `getCollections` keeps the
existing collections whose name does not start with `"system."` and, when a
name list was given, is contained in it. -/
def shouldClear (names : Option (List String)) (k : String) : Bool :=
  (!(isSystemName k)) &&
    (match names with
     | none => true
     | some ns => decide (k ∈ ns))

/-- Apply `removeAsync({})` to every collection selected by `getCollections`:
the selected collections keep existing but lose all documents. -/
def clearNames {Doc : Type} (db : DB Doc) (names : Option (List String)) : DB Doc :=
  db.map (fun e => if shouldClear names e.1 then (e.1, ([] : List Doc)) else e)

/-- The argument of `Loader.prototype.clear`: nothing, one name, or a list. -/
inductive ClearArg where
  | all
  | one (name : String)
  | many (names : List String)
deriving DecidableEq

/-- Normalisation done at the top of `clear`: a single string becomes a
one-element array, no argument stays `null`. -/
def ClearArg.toNames : ClearArg → Option (List String)
  | .all => none
  | .one n => some [n]
  | .many l => some l

/-- Embeds `Loader.prototype.clear`: connect, list the collections, filter them, and
remove all documents of each selected collection. -/
def clear {Doc : Type} (arg : ClearArg) (s : St Doc) : Outcome Doc :=
  let s1 := (connect s).2
  ⟨none, { s1 with db := clearNames s1.db arg.toNames }, [.clearCall arg.toNames]⟩

/-- Embeds `Loader.prototype.load`: resolve the fixtures, then `_loadData`. -/
def load {Doc : Type} (env : FS Doc) (mods : List (Mod Doc)) (fix : FixInput Doc)
    (s : St Doc) : Outcome Doc :=
  match fixturesLoader env fix with
  | .error e => ⟨some e, s, [.resolveCall]⟩
  | .ok data =>
      let r := loadData mods data s
      ⟨none, r.1, .resolveCall :: r.2⟩

/-- Embeds `Loader.prototype.clearAndLoad`: resolve once, clear exactly the keys of
the resolved data, then `_loadData` on the same resolved data. -/
def clearAndLoad {Doc : Type} (env : FS Doc) (mods : List (Mod Doc))
    (fix : FixInput Doc) (s : St Doc) : Outcome Doc :=
  match fixturesLoader env fix with
  | .error e => ⟨some e, s, [.resolveCall]⟩
  | .ok data =>
      let c := clear (.many (data.map Prod.fst)) s
      let r := loadData mods data c.state
      ⟨none, r.1, .resolveCall :: (c.trace ++ r.2)⟩

/-- Embeds `Loader.prototype.clearAllAndLoad`: `this.clear()` first, then
`this.load(fixtures)` (which re-resolves the input). -/
def clearAllAndLoad {Doc : Type} (env : FS Doc) (mods : List (Mod Doc))
    (fix : FixInput Doc) (s : St Doc) : Outcome Doc :=
  let c := clear .all s
  let r := load env mods fix c.state
  ⟨r.err, r.state, c.trace ++ r.trace⟩

end Loader

/-- One public operation invoked on a loader instance. -/
inductive OpCall (Doc : Type) where
  | load (fix : FixInput Doc)
  | clearAndLoad (fix : FixInput Doc)
  | clearAllAndLoad (fix : FixInput Doc)
  | clear (arg : Loader.ClearArg)

/-- Run one operation, keeping only the state. -/
def runOp {Doc : Type} (env : FS Doc) (mods : List (Mod Doc)) (c : OpCall Doc)
    (s : St Doc) : St Doc :=
  match c with
  | .load fix => (Loader.load env mods fix s).state
  | .clearAndLoad fix => (Loader.clearAndLoad env mods fix s).state
  | .clearAllAndLoad fix => (Loader.clearAllAndLoad env mods fix s).state
  | .clear arg => (Loader.clear arg s).state

/-- Run a whole lifetime of operations on one loader instance. -/
def runOps {Doc : Type} (env : FS Doc) (mods : List (Mod Doc)) (ops : List (OpCall Doc))
    (s : St Doc) : St Doc :=
  ops.foldl (fun st c => runOp env mods c st) s

/-- Documents contributed to collection `name` by the pairs of one fixture
object (all pairs whose key is `name`, in order, flattened). -/
def FixtureSet.docsFor {Doc : Type} (fo : FixtureSet Doc) (name : String) : List Doc :=
  (fo.filter (fun p => decide (p.1 = name))).flatMap (fun p => p.2.items)

/-- Documents inserted for collection `name` by `_loadData` over `data` after
running the modifier chain. -/
def collectedDocs {Doc : Type} (mods : List (Mod Doc)) (data : FixtureSet Doc)
    (name : String) : List Doc :=
  (data.filter (fun p => decide (p.1 = name))).flatMap
    (fun p => p.2.items.map (applyModifiers mods p.1))

/-- The ways one public operation can leave the connection fields: untouched,
or equal to what a single `_connect` from the entry state produces. -/
def ConnReach {Doc : Type} (s t : St Doc) : Prop :=
  (t.client = s.client ∧ t.connects = s.connects)
    ∨ (t.client = ((Loader.connect s).2).client
        ∧ t.connects = ((Loader.connect s).2).connects)

/-- The exported object contributed by one directory entry: a file
contributes its exports, a subdirectory (or unreadable entry) contributes
the empty object. -/
def entryFile {Doc : Type} (env : FS Doc) (p : String) : FixtureSet Doc :=
  match FS.stat env p with
  | some (.file ex) => ex
  | _ => []

/-- Documents contributed to collection `name` by directory entry `e`. -/
def entryDocs {Doc : Type} (env : FS Doc) (dir e name : String) : List Doc :=
  FixtureSet.docsFor (entryFile env (dir ++ "/" ++ e)) name

end Pow

/-!  Helper lemmas about the embedded operations. -/

namespace Pow



theorem DB.contents_insert {Doc : Type} (db : DB Doc) (n name : String) (ds : List Doc) :
    DB.contents (DB.insert db n ds) name
      = DB.contents db name ++ (if n = name then ds else []) := by
  induction db with
  | nil =>
      by_cases h : n = name <;> simp [DB.insert, DB.contents, List.find?, h]
  | cons e t ih =>
      by_cases he : e.1 = n
      · by_cases hn : n = name
        · simp [DB.insert, DB.contents, List.find?, he, hn]
        · have hne : ¬ e.1 = name := by rw [he]; exact hn
          simp [DB.insert, DB.contents, List.find?, he, hn, hne]
      · by_cases hen : e.1 = name
        · have h1 : ¬ name = n := by rw [← hen]; exact he
          have h2 : ¬ n = name := fun h => h1 h.symm
          simp [DB.insert, DB.contents, List.find?, he, hen, h1, h2]
        · simpa [DB.insert, DB.contents, List.find?, he, hen] using ih

theorem contents_clearNames {Doc : Type} (db : DB Doc) (names : Option (List String))
    (name : String) :
    DB.contents (Loader.clearNames db names) name
      = if Loader.shouldClear names name then [] else DB.contents db name := by
  induction db with
  | nil => cases h : Loader.shouldClear names name <;> simp [Loader.clearNames, DB.contents, h]
  | cons e t ih =>
      by_cases he : e.1 = name
      · cases h : Loader.shouldClear names name <;>
          simp [Loader.clearNames, DB.contents, List.find?, he, h, he ▸ h]
      · cases h : Loader.shouldClear names e.1 <;>
          simpa [Loader.clearNames, DB.contents, List.find?, he, h] using ih



theorem keys_clearNames {Doc : Type} (db : DB Doc) (names : Option (List String)) :
    (Loader.clearNames db names).map Prod.fst = db.map Prod.fst := by
  induction db with
  | nil => rfl
  | cons e t ih =>
      cases h : Loader.shouldClear names e.1 <;> simp [Loader.clearNames, h] at ih ⊢ <;>
        exact ih

theorem connect_of_some {Doc : Type} (s : St Doc) (c : Nat) (h : s.client = some c) :
    Loader.connect s = (c, s) := by
  simp [Loader.connect, h]

theorem connect_of_none {Doc : Type} (s : St Doc) (h : s.client = none) :
    Loader.connect s
      = (s.nextConn,
         { s with client := some s.nextConn, connects := s.connects + 1,
                  nextConn := s.nextConn + 1 }) := by
  simp [Loader.connect, h]

theorem connect_db {Doc : Type} (s : St Doc) : ((Loader.connect s).2).db = s.db := by
  cases h : s.client <;> simp [Loader.connect, h]

theorem loadData_foldl_db {Doc : Type} (mods : List (Mod Doc)) (data : FixtureSet Doc)
    (acc : St Doc × List Event) (name : String) :
    DB.contents ((data.foldl (Loader.loadDataStep mods) acc).1.db) name
      = DB.contents acc.1.db name ++ collectedDocs mods data name := by
  induction data generalizing acc with
  | nil => simp [collectedDocs]
  | cons p t ih =>
      rw [List.foldl_cons, ih]
      by_cases hp : p.1 = name
      · simp [Loader.loadDataStep, DB.contents_insert, collectedDocs, hp]
      · simp [Loader.loadDataStep, DB.contents_insert, collectedDocs, hp]

theorem loadData_foldl_trace {Doc : Type} (mods : List (Mod Doc)) (data : FixtureSet Doc)
    (acc : St Doc × List Event) :
    (data.foldl (Loader.loadDataStep mods) acc).2
      = acc.2 ++ data.map (fun p => Event.insertCall p.1) := by
  induction data generalizing acc with
  | nil => simp
  | cons p t ih => rw [List.foldl_cons, ih]; simp [Loader.loadDataStep]

theorem loadData_foldl_client {Doc : Type} (mods : List (Mod Doc)) (data : FixtureSet Doc)
    (acc : St Doc × List Event) :
    (data.foldl (Loader.loadDataStep mods) acc).1.client = acc.1.client
      ∧ (data.foldl (Loader.loadDataStep mods) acc).1.connects = acc.1.connects
      ∧ (data.foldl (Loader.loadDataStep mods) acc).1.nextConn = acc.1.nextConn := by
  induction data generalizing acc with
  | nil => exact ⟨rfl, rfl, rfl⟩
  | cons p t ih => rw [List.foldl_cons]; exact ih _

theorem contents_mergeFileObject {Doc : Type} (acc : DB Doc) (fo : FixtureSet Doc)
    (name : String) :
    DB.contents (mergeFileObject acc fo) name
      = DB.contents acc name ++ FixtureSet.docsFor fo name := by
  induction fo generalizing acc with
  | nil => simp [mergeFileObject, FixtureSet.docsFor]
  | cons p t ih =>
      rw [mergeFileObject, List.foldl_cons]
      have := ih (DB.insert acc p.1 p.2.items)
      rw [mergeFileObject] at this
      rw [this, DB.contents_insert]
      by_cases hp : p.1 = name
      · simp [FixtureSet.docsFor, hp]
      · simp [FixtureSet.docsFor, hp]

theorem contents_foldl_merge {Doc : Type} (fos : List (FixtureSet Doc)) (acc : DB Doc)
    (name : String) :
    DB.contents (fos.foldl mergeFileObject acc) name
      = DB.contents acc name ++ (fos.map (fun fo => FixtureSet.docsFor fo name)).flatten := by
  induction fos generalizing acc with
  | nil => simp
  | cons fo t ih =>
      rw [List.foldl_cons, ih, contents_mergeFileObject]
      simp



theorem mapM_ok_of_forall {α β : Type} (f : α → Except Err β) (g : α → β) (l : List α)
    (h : ∀ a ∈ l, f a = .ok (g a)) : l.mapM f = .ok (l.map g) := by
  induction l with
  | nil => rfl
  | cons a t ih =>
      rw [List.mapM_cons, h a (List.mem_cons_self a t), ih (fun x hx => h x (List.mem_cons_of_mem a hx))]
      rfl

theorem chainOutputs_ne_nil {Doc : Type} (mods : List (Mod Doc)) (name : String) (d : Doc) :
    chainOutputs mods name d ≠ [] := by
  cases mods <;> simp [chainOutputs]

theorem chainOutputs_length {Doc : Type} (mods : List (Mod Doc)) (name : String) (d : Doc) :
    (chainOutputs mods name d).length = mods.length + 1 := by
  induction mods generalizing d with
  | nil => rfl
  | cons m rest ih => simp [chainOutputs, ih]

theorem chainOutputs_getElem_zero {Doc : Type} (mods : List (Mod Doc)) (name : String) (d : Doc)
    (h : 0 < (chainOutputs mods name d).length) :
    (chainOutputs mods name d)[0] = d := by
  cases mods <;> rfl

theorem chainOutputs_getLast? {Doc : Type} (mods : List (Mod Doc)) (name : String) (d : Doc) :
    (chainOutputs mods name d).getLast? = some (applyModifiers mods name d) := by
  induction mods generalizing d with
  | nil => rfl
  | cons m rest ih =>
      obtain ⟨c, cs, hc⟩ : ∃ c cs, chainOutputs rest name (m name d) = c :: cs := by
        cases h : chainOutputs rest name (m name d) with
        | nil => exact absurd h (chainOutputs_ne_nil rest name (m name d))
        | cons c cs => exact ⟨c, cs, rfl⟩
      have := ih (m name d)
      rw [chainOutputs, hc, List.getLast?_cons_cons, ← hc, this]
      simp [applyModifiers]

theorem chainOutputs_getElem_succ {Doc : Type} (mods : List (Mod Doc)) (name : String) (d : Doc)
    (i : Nat) (hi : i < mods.length)
    (h1 : i + 1 < (chainOutputs mods name d).length)
    (h0 : i < (chainOutputs mods name d).length) :
    (chainOutputs mods name d)[i + 1] = (mods[i]) name ((chainOutputs mods name d)[i]) := by
  induction mods generalizing d i with
  | nil => exact absurd hi (Nat.not_lt_zero i)
  | cons m rest ih =>
      cases i with
      | zero =>
          have hlen : 0 < (chainOutputs rest name (m name d)).length := by
            rw [chainOutputs_length]; exact Nat.succ_pos _
          simp [chainOutputs, chainOutputs_getElem_zero rest name (m name d) hlen]
      | succ j =>
          have hj : j < rest.length := Nat.lt_of_succ_lt_succ hi
          have hj1 : j + 1 < (chainOutputs rest name (m name d)).length := by
            rw [chainOutputs_length]; omega
          have hj0 : j < (chainOutputs rest name (m name d)).length := by
            rw [chainOutputs_length]; omega
          simp [chainOutputs, ih (m name d) j hj hj1 hj0]





theorem collectedDocs_cons {Doc : Type} (mods : List (Mod Doc)) (p : String × Batch Doc)
    (t : FixtureSet Doc) (name : String) :
    collectedDocs mods (p :: t) name
      = (if p.1 = name then p.2.items.map (applyModifiers mods p.1) else [])
          ++ collectedDocs mods t name := by
  by_cases hp : p.1 = name <;> simp [collectedDocs, List.filter_cons, hp]

theorem collectedDocs_of_not_mem {Doc : Type} (mods : List (Mod Doc)) (data : FixtureSet Doc)
    (name : String) (h : ¬ name ∈ data.map Prod.fst) :
    collectedDocs mods data name = [] := by
  induction data with
  | nil => rfl
  | cons p t ih =>
      have hp : ¬ p.1 = name := fun he => h (by simp [he])
      have ht : ¬ name ∈ t.map Prod.fst := fun hm => h (by simp [hm])
      rw [collectedDocs_cons, if_neg hp, ih ht]
      rfl

theorem collectedDocs_of_empty {Doc : Type} (mods : List (Mod Doc)) (data : FixtureSet Doc)
    (name : String) (h : ∀ p ∈ data, p.1 = name → p.2.items = []) :
    collectedDocs mods data name = [] := by
  induction data with
  | nil => rfl
  | cons p t ih =>
      have ht : ∀ q ∈ t, q.1 = name → q.2.items = [] :=
        fun q hq => h q (List.mem_cons_of_mem p hq)
      rw [collectedDocs_cons, ih ht]
      by_cases hp : p.1 = name
      · rw [if_pos hp, h p (List.mem_cons_self p t) hp]
        rfl
      · rw [if_neg hp]
        rfl

theorem contents_of_find?_none {Doc : Type} (db : DB Doc) (name : String)
    (h : db.find? (fun e => decide (e.1 = name)) = none) :
    DB.contents db name = [] := by
  rw [DB.contents, h]
  rfl



theorem clear_state_conn {Doc : Type} (arg : Loader.ClearArg) (s : St Doc) :
    (Loader.clear arg s).state.client = ((Loader.connect s).2).client
      ∧ (Loader.clear arg s).state.connects = ((Loader.connect s).2).connects := by
  exact ⟨rfl, rfl⟩

theorem loadData_conn {Doc : Type} (mods : List (Mod Doc)) (data : FixtureSet Doc)
    (s : St Doc) :
    (Loader.loadData mods data s).1.client = ((Loader.connect s).2).client
      ∧ (Loader.loadData mods data s).1.connects = ((Loader.connect s).2).connects := by
  have h := loadData_foldl_client mods data ((Loader.connect s).2, [])
  exact ⟨h.1, h.2.1⟩


theorem connReach_after_connected {Doc : Type} (s m t : St Doc)
    (hm1 : m.client = ((Loader.connect s).2).client)
    (hm2 : m.connects = ((Loader.connect s).2).connects)
    (ht1 : t.client = ((Loader.connect m).2).client)
    (ht2 : t.connects = ((Loader.connect m).2).connects) :
    ConnReach s t := by
  cases hc : s.client with
  | some c =>
      have hs : (Loader.connect s).2 = s := by rw [connect_of_some s c hc]
      have hm1s : m.client = some c := by rw [hm1, hs, hc]
      have hmi : (Loader.connect m).2 = m := by rw [connect_of_some m c hm1s]
      left
      constructor
      · rw [ht1, hmi, hm1, hs, hc]
      · rw [ht2, hmi, hm2, hs]
  | none =>
      have hs := connect_of_none s hc
      have hm1s : m.client = some s.nextConn := by rw [hm1, hs]
      have hmi : (Loader.connect m).2 = m := by rw [connect_of_some m s.nextConn hm1s]
      right
      constructor
      · rw [ht1, hmi, hm1]
      · rw [ht2, hmi, hm2]

theorem runOp_connReach {Doc : Type} (env : FS Doc) (mods : List (Mod Doc))
    (c : OpCall Doc) (s : St Doc) : ConnReach s (runOp env mods c s) := by
  cases c with
  | load fix =>
      cases hres : fixturesLoader env fix with
      | error e =>
          left
          simp [runOp, Loader.load, hres]
      | ok data =>
          right
          simp only [runOp, Loader.load, hres]
          exact ⟨(loadData_conn mods data s).1, (loadData_conn mods data s).2⟩
  | clearAndLoad fix =>
      cases hres : fixturesLoader env fix with
      | error e =>
          left
          simp [runOp, Loader.clearAndLoad, hres]
      | ok data =>
          simp only [runOp, Loader.clearAndLoad, hres]
          exact connReach_after_connected s
            (Loader.clear (.many (data.map Prod.fst)) s).state _
            (clear_state_conn _ s).1 (clear_state_conn _ s).2
            (loadData_conn mods data _).1 (loadData_conn mods data _).2
  | clearAllAndLoad fix =>
      cases hres : fixturesLoader env fix with
      | error e =>
          simp only [runOp, Loader.clearAllAndLoad, Loader.load, hres]
          right
          exact clear_state_conn .all s
      | ok data =>
          simp only [runOp, Loader.clearAllAndLoad, Loader.load, hres]
          exact connReach_after_connected s (Loader.clear .all s).state _
            (clear_state_conn _ s).1 (clear_state_conn _ s).2
            (loadData_conn mods data _).1 (loadData_conn mods data _).2
  | clear arg =>
      right
      exact clear_state_conn arg s



theorem runOps_conn {Doc : Type} (env : FS Doc) (mods : List (Mod Doc))
    (ops : List (OpCall Doc)) (s : St Doc) :
    (s.client = none → (runOps env mods ops s).connects ≤ s.connects + 1)
      ∧ (∀ c, s.client = some c →
          (runOps env mods ops s).client = some c
            ∧ (runOps env mods ops s).connects = s.connects) := by
  induction ops generalizing s with
  | nil => exact ⟨fun _ => Nat.le_succ _, fun c hc => ⟨hc, rfl⟩⟩
  | cons op rest ih =>
      have hstep : runOps env mods (op :: rest) s
          = runOps env mods rest (runOp env mods op s) := rfl
      have hR := runOp_connReach env mods op s
      constructor
      · intro hc
        cases hR with
        | inl h =>
            have h1 : (runOp env mods op s).client = none := by rw [h.1, hc]
            have := (ih (runOp env mods op s)).1 h1
            rw [hstep]
            omega
        | inr h =>
            have hcn := connect_of_none s hc
            have h1 : (runOp env mods op s).client = some s.nextConn := by
              rw [h.1, hcn]
            have h2 : (runOp env mods op s).connects = s.connects + 1 := by
              rw [h.2, hcn]
            have := ((ih (runOp env mods op s)).2 s.nextConn h1).2
            rw [hstep]
            omega
      · intro c hc
        have hcs : (Loader.connect s).2 = s := by rw [connect_of_some s c hc]
        have h1 : (runOp env mods op s).client = some c := by
          cases hR with
          | inl h => rw [h.1, hc]
          | inr h => rw [h.1, hcs, hc]
        have h2 : (runOp env mods op s).connects = s.connects := by
          cases hR with
          | inl h => rw [h.2]
          | inr h => rw [h.2, hcs]
        have := (ih (runOp env mods op s)).2 c h1
        rw [hstep]
        exact ⟨this.1, by rw [this.2, h2]⟩


end Pow

namespace Pow

/-- C2 counterexample: `createObjectId` applied to the existing ObjectID with
reference 0 and hex `4eca80fae4af59f55d000020` does not return a distinct
instance with the same hex — the instance it returns is the argument itself
(reference 0), so the "never the same reference" half of the claim is false
at this input. -/
theorem c2_counterexample :
    ¬ ∃ (y : ObjectID) (nxt : Nat),
        createObjectId 5 "gen" (.oid ⟨0, "4eca80fae4af59f55d000020"⟩) = .ok (y, nxt)
          ∧ y.hex = "4eca80fae4af59f55d000020"
          ∧ y.ref ≠ 0 := by
  rintro ⟨y, nxt, heq, hhex, href⟩
  have hy : y = ⟨0, "4eca80fae4af59f55d000020"⟩ := by
    simp [createObjectId] at heq
    exact heq.1.symm
  exact href (by rw [hy])

/-- C2 (amended): for an existing ObjectID argument `x`, `createObjectId`
returns `x` itself — the same instance, hence trivially the same canonical
string — and allocates nothing. -/
theorem c2_identifier_returned_as_is (fresh : Nat) (gen : String) (x : ObjectID) :
    createObjectId fresh gen (.oid x) = .ok (x, fresh) := rfl

/-- C7: clearing by explicit name(s) never fails, never creates or drops a
collection (the key list of the database is untouched), and is a no-op for
any name that has no collection in the database. -/
theorem c7_clear_nonexistent {Doc : Type} (arg : Loader.ClearArg) (s : St Doc) :
    (Loader.clear arg s).err = none
      ∧ (Loader.clear arg s).state.db.map Prod.fst = s.db.map Prod.fst
      ∧ ∀ name, s.db.find? (fun e => decide (e.1 = name)) = none →
          DB.contents (Loader.clear arg s).state.db name = DB.contents s.db name := by
  refine ⟨rfl, ?_, ?_⟩
  · show (Loader.clearNames ((Loader.connect s).2).db arg.toNames).map Prod.fst
        = s.db.map Prod.fst
    rw [keys_clearNames, connect_db]
  · intro name hnone
    show DB.contents (Loader.clearNames ((Loader.connect s).2).db arg.toNames) name
        = DB.contents s.db name
    rw [connect_db, contents_clearNames, contents_of_find?_none s.db name hnone]
    cases h : Loader.shouldClear arg.toNames name <;> simp [h]

/-- C7 witness: clearing the name `doesNotExist` on a database holding only
`southpark` succeeds and leaves the database unchanged for that name. -/
theorem c7_clear_nonexistent_witness :
    DB.contents (Loader.clear (.one "doesNotExist") (⟨none, 0, 0, [("southpark", [1, 2, 3])]⟩ : St Nat)).state.db "doesNotExist"
      = DB.contents ([("southpark", [1, 2, 3])] : DB Nat) "doesNotExist" :=
  (c7_clear_nonexistent (.one "doesNotExist") ⟨none, 0, 0, [("southpark", [1, 2, 3])]⟩).2.2
    "doesNotExist" (by decide)

/-- C8: `clear()` with no argument leaves every non-system collection with
zero documents and never touches a collection whose name starts with
`system.`. -/
theorem c8_clear_all {Doc : Type} (s : St Doc) (name : String) :
    (Loader.isSystemName name = false →
        DB.contents (Loader.clear .all s).state.db name = [])
      ∧ (Loader.isSystemName name = true →
          DB.contents (Loader.clear .all s).state.db name = DB.contents s.db name) := by
  have hdb : (Loader.clear .all s).state.db
      = Loader.clearNames s.db none := by
    show Loader.clearNames ((Loader.connect s).2).db none = _
    rw [connect_db]
  constructor
  · intro hsys
    rw [hdb, contents_clearNames]
    simp [Loader.shouldClear, hsys]
  · intro hsys
    rw [hdb, contents_clearNames]
    simp [Loader.shouldClear, hsys]

/-- C8 witness: with `archer` (3 docs), `southpark` (3 docs) and
`system.indexes` (1 doc) present, `clear()` empties the former two and keeps
the system collection intact. -/
theorem c8_clear_all_witness :
    DB.contents (Loader.clear .all (⟨none, 0, 0, [("archer", [1, 2, 3]), ("southpark", [4, 5, 6]), ("system.indexes", [7])]⟩ : St Nat)).state.db "archer" = []
      ∧ DB.contents (Loader.clear .all (⟨none, 0, 0, [("archer", [1, 2, 3]), ("southpark", [4, 5, 6]), ("system.indexes", [7])]⟩ : St Nat)).state.db "system.indexes"
          = DB.contents ([("archer", [1, 2, 3]), ("southpark", [4, 5, 6]), ("system.indexes", [7])] : DB Nat) "system.indexes" :=
  ⟨(c8_clear_all ⟨none, 0, 0, [("archer", [1, 2, 3]), ("southpark", [4, 5, 6]), ("system.indexes", [7])]⟩ "archer").1 (by decide),
   (c8_clear_all ⟨none, 0, 0, [("archer", [1, 2, 3]), ("southpark", [4, 5, 6]), ("system.indexes", [7])]⟩ "system.indexes").2 (by decide)⟩

/-- C10: a plain `load` call only ever appends to a collection: for every
input and every collection, the documents before the call are a prefix of the
documents after it (on a resolution failure nothing is appended). -/
theorem c10_load_append_only {Doc : Type} (env : FS Doc) (mods : List (Mod Doc))
    (fix : FixInput Doc) (s : St Doc) (name : String) :
    ∃ tail, DB.contents (Loader.load env mods fix s).state.db name
        = DB.contents s.db name ++ tail := by
  cases hres : fixturesLoader env fix with
  | error e =>
      refine ⟨[], ?_⟩
      simp [Loader.load, hres]
  | ok data =>
      refine ⟨collectedDocs mods data name, ?_⟩
      simp only [Loader.load, hres]
      show DB.contents ((data.foldl (Loader.loadDataStep mods) ((Loader.connect s).2, [])).1.db) name = _
      rw [loadData_foldl_db, connect_db]

end Pow

namespace Pow

/-- C6: loading an inline fixture object always succeeds; an empty fixture
object leaves the database exactly as it was, and a collection all of whose
batches are empty receives no documents. -/
theorem c6_empty_fixtures {Doc : Type} (env : FS Doc) (mods : List (Mod Doc))
    (data : FixtureSet Doc) (s : St Doc) :
    (Loader.load env mods (.obj data) s).err = none
      ∧ (data = [] → (Loader.load env mods (.obj data) s).state.db = s.db)
      ∧ ∀ name, (∀ p ∈ data, p.1 = name → p.2.items = []) →
          DB.contents (Loader.load env mods (.obj data) s).state.db name
            = DB.contents s.db name := by
  refine ⟨rfl, ?_, ?_⟩
  · intro hdata
    subst hdata
    show ((Loader.connect s).2).db = s.db
    exact connect_db s
  · intro name hempty
    show DB.contents ((data.foldl (Loader.loadDataStep mods) ((Loader.connect s).2, [])).1.db) name
        = DB.contents s.db name
    rw [loadData_foldl_db, connect_db, collectedDocs_of_empty mods data name hempty,
      List.append_nil]

/-- C6 witness: loading `{}` changes nothing, and loading a fixture whose
only collection has an empty batch inserts no document into it. -/
theorem c6_empty_fixtures_witness :
    (Loader.load ([] : FS Nat) [] (.obj []) (⟨none, 0, 0, [("archer", [1])]⟩ : St Nat)).state.db
        = [("archer", [1])]
      ∧ DB.contents (Loader.load ([] : FS Nat) [] (.obj [("southpark", .arr [])]) (⟨none, 0, 0, [("archer", [1])]⟩ : St Nat)).state.db "southpark"
          = DB.contents ([("archer", [1])] : DB Nat) "southpark" :=
  ⟨(c6_empty_fixtures ([] : FS Nat) [] [] ⟨none, 0, 0, [("archer", [1])]⟩).2.1 rfl,
   (c6_empty_fixtures ([] : FS Nat) [] [("southpark", .arr [])] ⟨none, 0, 0, [("archer", [1])]⟩).2.2
     "southpark" (by decide)⟩

/-- C9: over any sequence of operations on one loader instance, at most one
connection is ever established: starting with no cached client the number of
established connections grows by at most one, and once a client `c` is
cached every later operation keeps `c` and establishes nothing. -/
theorem c9_single_connection {Doc : Type} (env : FS Doc) (mods : List (Mod Doc))
    (ops : List (OpCall Doc)) (s : St Doc) :
    (s.client = none → (runOps env mods ops s).connects ≤ s.connects + 1)
      ∧ (∀ c, s.client = some c →
          (runOps env mods ops s).client = some c
            ∧ (runOps env mods ops s).connects = s.connects) :=
  runOps_conn env mods ops s

/-- C9 witness: three consecutive operations starting from a fresh loader
establish exactly one connection (bounded by one). -/
theorem c9_single_connection_witness :
    (runOps ([] : FS Nat) []
        [.clearAllAndLoad (.obj [("southpark", .arr [1])]),
         .load (.obj [("southpark", .arr [2])]),
         .clear .all]
        (⟨none, 0, 0, []⟩ : St Nat)).connects ≤ 0 + 1 :=
  (c9_single_connection ([] : FS Nat) []
    [.clearAllAndLoad (.obj [("southpark", .arr [1])]),
     .load (.obj [("southpark", .arr [2])]),
     .clear .all]
    ⟨none, 0, 0, []⟩).1 rfl

end Pow

namespace Pow

/-- C1 counterexample: with `archer` pre-populated, calling `clearAllAndLoad`
on an unsupported input makes resolution fail, yet the database is not what
it was before the call — `archer` has been emptied, because
`clearAllAndLoad` runs `this.clear()` before `this.load` ever resolves the
input. -/
theorem c1_counterexample :
    fixturesLoader ([] : FS Nat) (.other) = .error .unsupportedInput
      ∧ (Loader.clearAllAndLoad ([] : FS Nat) [] .other (⟨none, 0, 0, [("archer", [1, 2, 3])]⟩ : St Nat)).err.isSome = true
      ∧ ¬ (Loader.clearAllAndLoad ([] : FS Nat) [] .other (⟨none, 0, 0, [("archer", [1, 2, 3])]⟩ : St Nat)).state.db
            = [("archer", [1, 2, 3])] := by
  decide

/-- C1 (amended): when resolution of the input fails, `load` and
`clearAndLoad` fail with that error and leave the state exactly as it was
(no clear, no insert, as their traces show); `clearAllAndLoad` also fails
with that error and inserts nothing, but its clear-all has already run, so
the database is the cleared one, not the original. -/
theorem c1_resolution_failure_effects {Doc : Type} (env : FS Doc)
    (mods : List (Mod Doc)) (fix : FixInput Doc) (s : St Doc) (e : Err)
    (h : fixturesLoader env fix = .error e) :
    Loader.load env mods fix s = ⟨some e, s, [.resolveCall]⟩
      ∧ Loader.clearAndLoad env mods fix s = ⟨some e, s, [.resolveCall]⟩
      ∧ (Loader.clearAllAndLoad env mods fix s).err = some e
      ∧ (Loader.clearAllAndLoad env mods fix s).state.db = Loader.clearNames s.db none
      ∧ (Loader.clearAllAndLoad env mods fix s).trace = [.clearCall none, .resolveCall] := by
  refine ⟨?_, ?_, ?_, ?_, ?_⟩
  · simp [Loader.load, h]
  · simp [Loader.clearAndLoad, h]
  · simp [Loader.clearAllAndLoad, Loader.load, h]
  · show (Loader.load env mods fix (Loader.clear .all s).state).state.db = _
    simp only [Loader.load, h]
    show Loader.clearNames ((Loader.connect s).2).db none = _
    rw [connect_db]
  · simp [Loader.clearAllAndLoad, Loader.load, h, Loader.clear, Loader.ClearArg.toNames]

/-- C1 witness: a `load` of an unsupported input fails with
`UnsupportedFixtureInput` and returns the state untouched. -/
theorem c1_resolution_failure_effects_witness :
    Loader.load ([] : FS Nat) [] .other (⟨none, 0, 0, [("archer", [1, 2, 3])]⟩ : St Nat)
      = ⟨some .unsupportedInput, ⟨none, 0, 0, [("archer", [1, 2, 3])]⟩, [.resolveCall]⟩ :=
  (c1_resolution_failure_effects ([] : FS Nat) [] .other
    ⟨none, 0, 0, [("archer", [1, 2, 3])]⟩ .unsupportedInput rfl).1

end Pow

namespace Pow

/-- C3: `clearAndLoad` on an input that resolves to `data` succeeds; its
collaborator trace is exactly one resolution, followed by one clear call
whose argument is exactly the key set of the resolved data, followed by the
per-collection inserts (so the clear precedes every insert and the input is
never re-resolved); and every collection not named in the resolved data
keeps its previous documents. -/
theorem c3_clearAndLoad_scope {Doc : Type} (env : FS Doc) (mods : List (Mod Doc))
    (fix : FixInput Doc) (s : St Doc) (data : FixtureSet Doc)
    (h : fixturesLoader env fix = .ok data) :
    (Loader.clearAndLoad env mods fix s).err = none
      ∧ (Loader.clearAndLoad env mods fix s).trace
          = .resolveCall :: .clearCall (some (data.map Prod.fst))
              :: data.map (fun p => Event.insertCall p.1)
      ∧ ∀ name, ¬ name ∈ data.map Prod.fst →
          DB.contents (Loader.clearAndLoad env mods fix s).state.db name
            = DB.contents s.db name := by
  refine ⟨?_, ?_, ?_⟩
  · simp [Loader.clearAndLoad, h]
  · simp only [Loader.clearAndLoad, h]
    show Event.resolveCall :: ([Event.clearCall (Loader.ClearArg.many (data.map Prod.fst)).toNames]
        ++ (Loader.loadData mods data (Loader.clear (.many (data.map Prod.fst)) s).state).2) = _
    rw [Loader.loadData, loadData_foldl_trace]
    simp [Loader.ClearArg.toNames]
  · intro name hname
    simp only [Loader.clearAndLoad, h]
    show DB.contents ((data.foldl (Loader.loadDataStep mods)
        ((Loader.connect (Loader.clear (.many (data.map Prod.fst)) s).state).2, [])).1.db) name
        = DB.contents s.db name
    rw [loadData_foldl_db, connect_db, collectedDocs_of_not_mem mods data name hname,
      List.append_nil]
    show DB.contents (Loader.clearNames ((Loader.connect s).2).db
        (Loader.ClearArg.many (data.map Prod.fst)).toNames) name = _
    rw [connect_db, contents_clearNames]
    have hsc : Loader.shouldClear (Loader.ClearArg.many (data.map Prod.fst)).toNames name = false := by
      simp [Loader.shouldClear, Loader.ClearArg.toNames, hname]
    simp [hsc]

/-- C3 witness: with `archer` and `southpark` pre-populated,
`clearAndLoad({southpark: [9]})` succeeds with the trace
resolve-clear-insert and leaves `archer` unchanged. -/
theorem c3_clearAndLoad_scope_witness :
    (Loader.clearAndLoad ([] : FS Nat) [] (.obj [("southpark", .arr [9])]) (⟨none, 0, 0, [("archer", [1, 2, 3]), ("southpark", [4, 5, 6])]⟩ : St Nat)).trace
        = [.resolveCall, .clearCall (some ["southpark"]), .insertCall "southpark"]
      ∧ DB.contents (Loader.clearAndLoad ([] : FS Nat) [] (.obj [("southpark", .arr [9])]) (⟨none, 0, 0, [("archer", [1, 2, 3]), ("southpark", [4, 5, 6])]⟩ : St Nat)).state.db "archer"
          = DB.contents ([("archer", [1, 2, 3]), ("southpark", [4, 5, 6])] : DB Nat) "archer" :=
  ⟨(c3_clearAndLoad_scope ([] : FS Nat) [] (.obj [("southpark", .arr [9])])
      ⟨none, 0, 0, [("archer", [1, 2, 3]), ("southpark", [4, 5, 6])]⟩ [("southpark", .arr [9])] rfl).2.1,
   (c3_clearAndLoad_scope ([] : FS Nat) [] (.obj [("southpark", .arr [9])])
      ⟨none, 0, 0, [("archer", [1, 2, 3]), ("southpark", [4, 5, 6])]⟩ [("southpark", .arr [9])] rfl).2.2
      "archer" (by decide)⟩

end Pow

namespace Pow


/-- C4: resolving a directory whose direct entries are all known to stat
succeeds (subdirectory entries are empty contributions, not errors), and for
every collection name the resulting batch is exactly the concatenation, in
entry-enumeration order, of what each entry contributes — no document is
lost.  The same resolved value is what `fixturesLoader` returns for the
directory path. -/
theorem c4_directory_merge {Doc : Type} (env : FS Doc) (dir : String)
    (entries : List String)
    (hdir : FS.stat env dir = some (.dir entries))
    (hok : ∀ e ∈ entries, (FS.stat env (dir ++ "/" ++ e)).isSome = true) :
    ∃ res : DB Doc,
      directoryToObject env dir = .ok res
        ∧ fixturesLoader env (.path dir) = .ok (res.map (fun q => (q.1, Batch.arr q.2)))
        ∧ ∀ name, DB.contents res name
            = (entries.map (fun e => entryDocs env dir e name)).flatten := by
  have hentry : ∀ a ∈ entries,
      entryToObject env (dir ++ "/" ++ a) = .ok (entryFile env (dir ++ "/" ++ a)) := by
    intro a ha
    cases hstat : FS.stat env (dir ++ "/" ++ a) with
    | none =>
        have := hok a ha
        rw [hstat] at this
        simp at this
    | some r => cases r <;> simp [entryToObject, entryFile, hstat]
  have hmapM : entries.mapM (fun e => entryToObject env (dir ++ "/" ++ e))
      = .ok (entries.map (fun e => entryFile env (dir ++ "/" ++ e))) :=
    mapM_ok_of_forall _ _ entries hentry
  refine ⟨(entries.map (fun e => entryFile env (dir ++ "/" ++ e))).foldl mergeFileObject [],
    ?_, ?_, ?_⟩
  · simp only [directoryToObject, hdir]
    rw [hmapM]
    rfl
  · simp only [fixturesLoader, hdir, directoryToObject]
    rw [hmapM]
    rfl
  · intro name
    rw [contents_foldl_merge]
    have h0 : DB.contents ([] : DB Doc) name = [] := rfl
    rw [h0, List.nil_append, List.map_map]
    rfl

/-- C4 witness: a directory with two files contributing to `southpark` and a
subdirectory entry resolves to `southpark = [10, 11], archer = [12]` with
nothing lost and the subdirectory ignored. -/
theorem c4_directory_merge_witness :
    fixturesLoader ([("d", .dir ["f1", "f2", "sub"]), ("d/f1", .file [("southpark", .arr [10])]), ("d/f2", .file [("southpark", .obj [("a", 11)]), ("archer", .arr [12])]), ("d/sub", .dir [])] : FS Nat) (.path "d")
      = .ok [("southpark", .arr [10, 11]), ("archer", .arr [12])] := by
  obtain ⟨res, hres, hfix, hcontents⟩ := c4_directory_merge
    ([("d", .dir ["f1", "f2", "sub"]), ("d/f1", .file [("southpark", .arr [10])]), ("d/f2", .file [("southpark", .obj [("a", 11)]), ("archer", .arr [12])]), ("d/sub", .dir [])] : FS Nat)
    "d" ["f1", "f2", "sub"] (by decide) (by decide)
  have hconc : directoryToObject
      ([("d", .dir ["f1", "f2", "sub"]), ("d/f1", .file [("southpark", .arr [10])]), ("d/f2", .file [("southpark", .obj [("a", 11)]), ("archer", .arr [12])]), ("d/sub", .dir [])] : FS Nat)
      "d" = .ok [("southpark", [10, 11]), ("archer", [12])] := by decide
  rw [hres] at hconc
  rw [hfix, Except.ok.inj hconc]
  rfl

/-- C5: the modifier chain of `_loadData` applies the registered modifiers
to each document exactly once each and strictly in registration order: the
intermediate-value sequence has one entry per modifier plus the original
document, starts at the original document, feeds the output of modifier `i`
exclusively into modifier `i+1`, and ends at the chain result; and the
documents a load inserts for each collection are exactly the batch items
mapped through that chain. -/
theorem c5_modifier_chain {Doc : Type} (mods : List (Mod Doc)) (name : String) (d : Doc) :
    (chainOutputs mods name d).length = mods.length + 1
      ∧ (∀ h : 0 < (chainOutputs mods name d).length, (chainOutputs mods name d)[0] = d)
      ∧ (∀ (i : Nat) (hi : i < mods.length)
          (h1 : i + 1 < (chainOutputs mods name d).length)
          (h0 : i < (chainOutputs mods name d).length),
          (chainOutputs mods name d)[i + 1]
            = (mods[i]) name ((chainOutputs mods name d)[i]))
      ∧ (chainOutputs mods name d).getLast? = some (applyModifiers mods name d)
      ∧ ∀ (data : FixtureSet Doc) (s : St Doc) (nm : String),
          DB.contents ((Loader.loadData mods data s).1.db) nm
            = DB.contents s.db nm ++ collectedDocs mods data nm := by
  refine ⟨chainOutputs_length mods name d,
    fun h => chainOutputs_getElem_zero mods name d h,
    fun i hi h1 h0 => chainOutputs_getElem_succ mods name d i hi h1 h0,
    chainOutputs_getLast? mods name d,
    fun data s nm => ?_⟩
  rw [Loader.loadData, loadData_foldl_db, connect_db]

/-- C5 witness: with the chain `[+1, *2]` on document 3, step 0 feeds its
output 4 into modifier 1 (yielding 8 as the chain result). -/
theorem c5_modifier_chain_witness :
    (chainOutputs [fun (_ : String) (x : Nat) => x + 1, fun (_ : String) (x : Nat) => x * 2] "a" 3).get ⟨1, by decide⟩
      = ([fun (_ : String) (x : Nat) => x + 1, fun (_ : String) (x : Nat) => x * 2].get ⟨0, by decide⟩) "a"
          ((chainOutputs [fun (_ : String) (x : Nat) => x + 1, fun (_ : String) (x : Nat) => x * 2] "a" 3).get ⟨0, by decide⟩) :=
  (c5_modifier_chain [fun (_ : String) (x : Nat) => x + 1, fun (_ : String) (x : Nat) => x * 2] "a" 3).2.2.1
    0 (by decide) (by decide) (by decide)

end Pow
